import Mathlib

/-
Shallow embedding of the raxnet-platform backend handlers
(src/server/src/handlers/transactions.ts, src/server/src/handlers/task_works.ts,
the tasks handler, and the drizzle schema src/server/src/db/schema.ts).

Tables are lists of rows; SQL `select ... where eq(id)` is modelled by a
first-match lookup, `update ... where eq(id)` by a map touching the rows with
the given id. `new Date()` is modelled by an abstract tick `now : Nat` passed
to each handler. A thrown Error is an `Except.error` carrying the message
string; the database returned alongside reflects every write performed before
the throw (the handlers run statements sequentially, without a transaction).
Machine integers are modelled as `Int` (PostgreSQL `integer` columns are
signed). Columns that no modelled handler reads or writes (email,
password_hash, role, user status, two_factor flags, target_url metadata and
the like) are omitted from the row structures; they are inert for every
operation formalised here.
-/

namespace Raxnet

/-- transaction_type enum of db/schema.ts. -/
inductive TransactionType where
  | topup
  | withdrawal
  | task_payment
  | task_earning
  | system_fee
  | bonus
deriving DecidableEq, Repr

/-- transaction_status enum of db/schema.ts. -/
inductive TransactionStatus where
  | pending
  | completed
  | failed
  | cancelled
deriving DecidableEq, Repr

/-- task_status enum of db/schema.ts. -/
inductive TaskStatus where
  | active
  | completed
  | paused
  | cancelled
deriving DecidableEq, Repr

/-- A row of usersTable (id, coin_balance, updated_at; other columns are
never read or written by the handlers modelled here). -/
structure UserRow where
  id : Nat
  coin_balance : Int
  updated_at : Nat
deriving DecidableEq, Repr

/-- A row of tasksTable. -/
structure TaskRow where
  id : Nat
  creator_id : Nat
  target_interactions : Int
  completed_interactions : Int
  coins_per_interaction : Int
  total_coins_allocated : Int
  status : TaskStatus
  created_at : Nat
  updated_at : Nat
deriving DecidableEq, Repr

/-- A row of taskWorksTable. -/
structure TaskWorkRow where
  id : Nat
  task_id : Nat
  worker_id : Nat
  coins_earned : Int
  completed_at : Nat
  verified_at : Option Nat
  verification_method : Option String
  proof_screenshot : Option String
  admin_notes : Option String
deriving DecidableEq, Repr

/-- A row of transactionsTable. -/
structure TransactionRow where
  id : Nat
  user_id : Nat
  type : TransactionType
  amount : Int
  status : TransactionStatus
  payment_method : Option String
  external_transaction_id : Option String
  description : String
  metadata : Option String
  created_at : Nat
  processed_at : Option Nat
deriving DecidableEq, Repr

/-- The relational store: one list per table, plus the serial id counters. -/
structure DB where
  users : List UserRow
  tasks : List TaskRow
  task_works : List TaskWorkRow
  transactions : List TransactionRow
  next_task_id : Nat
  next_work_id : Nat
  next_transaction_id : Nat
deriving DecidableEq, Repr

/-- First row of the list whose id (as projected by getId) equals i:
the model of `select ... where eq(table.id, i)`. -/
def findRow {α : Type} (getId : α → Nat) : List α → Nat → Option α
  | [], _ => none
  | r :: rest, i => if getId r = i then some r else findRow getId rest i

/-- Apply g to every row whose id equals i: the model of
`update ... set ... where eq(table.id, i)`. -/
def updateRow {α : Type} (getId : α → Nat) (l : List α) (i : Nat) (g : α → α) : List α :=
  l.map fun r => if getId r = i then g r else r

/-- Table lookups specialised to the four tables. -/
def findUser (db : DB) (i : Nat) : Option UserRow := findRow UserRow.id db.users i

def findTask (db : DB) (i : Nat) : Option TaskRow := findRow TaskRow.id db.tasks i

def findWork (db : DB) (i : Nat) : Option TaskWorkRow :=
  findRow TaskWorkRow.id db.task_works i

def findTxn (db : DB) (i : Nat) : Option TransactionRow :=
  findRow TransactionRow.id db.transactions i

/-- The coin balance a caller observes for user uid (0 when the user row is
absent; no handler below ever touches a non-existent row). -/
def balOf (db : DB) (uid : Nat) : Int :=
  match findUser db uid with
  | some u => u.coin_balance
  | none => 0

/-- JavaScript `x || null` applied to a zod `.nullable().optional()` string
field: undefined, null and the empty string all collapse to null. -/
def orNull : Option (Option String) → Option String
  | some (some s) => if s = "" then none else some s
  | _ => none

/-- The result of a handler: the value returned or the Error thrown, paired
with the database state after every statement that ran. -/
abbrev HResult (α : Type) := Except String α × DB

/-- Whether an HResult returned normally. -/
def isOk {α : Type} : Except String α → Bool
  | .ok _ => true
  | .error _ => false

/-- The balance write every ledger handler issues:
`db.update(usersTable).set(\x7b coin_balance: newBal, updated_at: new Date() \x7d).where(eq(usersTable.id, tgt))`. -/
def setBalance (l : List UserRow) (tgt : Nat) (newBal : Int) (now : Nat) :
    List UserRow :=
  updateRow UserRow.id l tgt fun u =>
    { u with coin_balance := newBal, updated_at := now }

/-- Input of createTask (createTaskInputSchema; platform, interaction_type and
target_url are inert for the bookkeeping and omitted). Zod validates
target_interactions and coins_per_interaction as positive integers at the
boundary; the handler itself does not re-check them. -/
structure CreateTaskInput where
  target_interactions : Int
  coins_per_interaction : Int
deriving DecidableEq, Repr

/-- createTask of the tasks handler: compute totalCost, look up the creator,
fail when absent or when coin_balance < totalCost, otherwise debit the
creator and insert the task row (completed_interactions defaults to 0 and
status to active per tasksTable). -/
def createTask (db : DB) (now : Nat) (input : CreateTaskInput) (creatorId : Nat) :
    HResult TaskRow :=
  let totalCost := input.target_interactions * input.coins_per_interaction
  match findUser db creatorId with
  | none => (.error "Creator not found", db)
  | some creator =>
    if creator.coin_balance < totalCost then
      (.error "Insufficient coin balance", db)
    else
      let db1 : DB := { db with
        users := setBalance db.users creatorId (creator.coin_balance - totalCost) now }
      let task : TaskRow := {
        id := db1.next_task_id
        creator_id := creatorId
        target_interactions := input.target_interactions
        completed_interactions := 0
        coins_per_interaction := input.coins_per_interaction
        total_coins_allocated := totalCost
        status := .active
        created_at := now
        updated_at := now }
      let db2 : DB := { db1 with
        tasks := db1.tasks ++ [task]
        next_task_id := db1.next_task_id + 1 }
      (.ok task, db2)

/-- Input of createTaskWork (createTaskWorkInputSchema). -/
structure CreateTaskWorkInput where
  task_id : Nat
  proof_screenshot : Option String
deriving DecidableEq, Repr

/-- createTaskWork of task_works.ts: checks, in source order, that the task
exists, is active and below target, that the worker exists, that no
(task, worker) row exists yet, and that the worker is not the creator; then
inserts a pending row earning the per-interaction price. -/
def createTaskWork (db : DB) (now : Nat) (input : CreateTaskWorkInput)
    (workerId : Nat) : HResult TaskWorkRow :=
  match findTask db input.task_id with
  | none => (.error "Task not found", db)
  | some taskData =>
    if taskData.status ≠ .active then
      (.error "Task is not active", db)
    else if taskData.target_interactions ≤ taskData.completed_interactions then
      (.error "Task has already reached target interactions", db)
    else
      match findUser db workerId with
      | none => (.error "Worker not found", db)
      | some _ =>
        if (db.task_works.filter fun w =>
              w.task_id = input.task_id ∧ w.worker_id = workerId) ≠ [] then
          (.error "Worker has already completed this task", db)
        else if taskData.creator_id = workerId then
          (.error "Task creator cannot work on their own task", db)
        else
          let work : TaskWorkRow := {
            id := db.next_work_id
            task_id := input.task_id
            worker_id := workerId
            coins_earned := taskData.coins_per_interaction
            completed_at := now
            verified_at := none
            verification_method := none
            proof_screenshot := input.proof_screenshot
            admin_notes := none }
          (.ok work, { db with
            task_works := db.task_works ++ [work]
            next_work_id := db.next_work_id + 1 })

/-- Input of verifyTaskWork (verifyTaskWorkInputSchema; admin_notes is
nullable and optional). -/
structure VerifyTaskWorkInput where
  id : Nat
  verification_method : String
  admin_notes : Option (Option String)
deriving DecidableEq, Repr

/-- verifyTaskWork of task_works.ts: fails when the row is absent or already
has verified_at set; otherwise stamps verified_at, verification_method and
admin_notes. It writes nothing else: in particular it does not update the
worker row or the task row. -/
def verifyTaskWork (db : DB) (now : Nat) (input : VerifyTaskWorkInput) :
    HResult TaskWorkRow :=
  match findWork db input.id with
  | none => (.error "Task work not found", db)
  | some existingWork =>
    if existingWork.verified_at ≠ none then
      (.error "Task work has already been verified", db)
    else
      let g : TaskWorkRow → TaskWorkRow := fun w =>
        { w with
          verified_at := some now
          verification_method := some input.verification_method
          admin_notes := orNull input.admin_notes }
      (.ok (g existingWork),
       { db with task_works := updateRow TaskWorkRow.id db.task_works input.id g })

/-- rejectTaskWork of task_works.ts: fails when the row is absent or already
has verified_at set; otherwise records the rejection, zeroing coins_earned
and leaving verified_at null. -/
def rejectTaskWork (db : DB) (taskWorkId : Nat) (reason : String) :
    HResult TaskWorkRow :=
  match findWork db taskWorkId with
  | none => (.error "Task work not found", db)
  | some existingWork =>
    if existingWork.verified_at ≠ none then
      (.error "Task work has already been processed", db)
    else
      let g : TaskWorkRow → TaskWorkRow := fun w =>
        { w with
          verification_method := some "manual_rejection"
          admin_notes := some reason
          coins_earned := 0 }
      (.ok (g existingWork),
       { db with task_works := updateRow TaskWorkRow.id db.task_works taskWorkId g })

/-- Input of createTransaction (createTransactionInputSchema): the amount is
any integer, with no positivity constraint. -/
structure CreateTransactionInput where
  type : TransactionType
  amount : Int
  payment_method : Option (Option String)
  description : String
  metadata : Option (Option String)
deriving DecidableEq, Repr

/-- createTransaction of transactions.ts: looks up the user, pre-checks the
balance for withdrawals only, and inserts a pending row. -/
def createTransaction (db : DB) (now : Nat) (input : CreateTransactionInput)
    (userId : Nat) : HResult TransactionRow :=
  match findUser db userId with
  | none => (.error "User not found", db)
  | some user =>
    if input.type = .withdrawal ∧ user.coin_balance < input.amount then
      (.error "Insufficient coin balance", db)
    else
      let txn : TransactionRow := {
        id := db.next_transaction_id
        user_id := userId
        type := input.type
        amount := input.amount
        status := .pending
        payment_method := orNull input.payment_method
        external_transaction_id := none
        description := input.description
        metadata := orNull input.metadata
        created_at := now
        processed_at := none }
      (.ok txn, { db with
        transactions := db.transactions ++ [txn]
        next_transaction_id := db.next_transaction_id + 1 })

/-- Input of updateTransaction (updateTransactionInputSchema;
external_transaction_id is nullable and optional: the outer Option is
undefined-ness, the inner one null-ness). -/
structure UpdateTransactionInput where
  id : Nat
  status : TransactionStatus
  external_transaction_id : Option (Option String)
deriving DecidableEq, Repr

/-- updateTransaction of transactions.ts: fails when the row is absent;
otherwise overwrites status, overwrites external_transaction_id only when the
input carried the field, and stamps processed_at exactly when the new status
is completed or failed. It touches no other table. -/
def updateTransaction (db : DB) (now : Nat) (input : UpdateTransactionInput) :
    HResult TransactionRow :=
  match findTxn db input.id with
  | none => (.error "Transaction not found", db)
  | some existing =>
    let g : TransactionRow → TransactionRow := fun t =>
      { t with
        status := input.status
        external_transaction_id :=
          match input.external_transaction_id with
          | none => t.external_transaction_id
          | some v => v
        processed_at :=
          if input.status = .completed ∨ input.status = .failed then some now
          else t.processed_at }
    (.ok (g existing),
     { db with transactions := updateRow TransactionRow.id db.transactions input.id g })

/-- processTopup of transactions.ts: checks the row exists, is a topup and is
pending, looks up the owner, credits the owner by the amount, then marks the
transaction completed with processed_at stamped. -/
def processTopup (db : DB) (now : Nat) (transactionId : Nat) :
    HResult TransactionRow :=
  match findTxn db transactionId with
  | none => (.error "Transaction not found", db)
  | some txn =>
    if txn.type ≠ .topup then
      (.error "Transaction is not a topup", db)
    else if txn.status ≠ .pending then
      (.error "Transaction is not pending", db)
    else
      match findUser db txn.user_id with
      | none => (.error "User not found", db)
      | some user =>
        let db1 : DB := { db with
          users := setBalance db.users txn.user_id (user.coin_balance + txn.amount) now }
        let g : TransactionRow → TransactionRow := fun t =>
          { t with status := .completed, processed_at := some now }
        (.ok (g txn),
         { db1 with transactions := updateRow TransactionRow.id db1.transactions transactionId g })

/-- processWithdrawal of transactions.ts: checks the row exists, is a
withdrawal and is pending, looks up the owner and re-checks the balance; on
insufficient funds it first marks the transaction failed (with processed_at
stamped) and then throws, so that write survives the error; otherwise it
debits the owner and marks the transaction completed. -/
def processWithdrawal (db : DB) (now : Nat) (transactionId : Nat) :
    HResult TransactionRow :=
  match findTxn db transactionId with
  | none => (.error "Transaction not found", db)
  | some txn =>
    if txn.type ≠ .withdrawal then
      (.error "Transaction is not a withdrawal", db)
    else if txn.status ≠ .pending then
      (.error "Transaction is not pending", db)
    else
      match findUser db txn.user_id with
      | none => (.error "User not found", db)
      | some user =>
        if user.coin_balance < txn.amount then
          let gFail : TransactionRow → TransactionRow := fun t =>
            { t with status := .failed, processed_at := some now }
          (.error "Insufficient coin balance",
           { db with transactions := updateRow TransactionRow.id db.transactions transactionId gFail })
        else
          let db1 : DB := { db with
            users := setBalance db.users txn.user_id (user.coin_balance - txn.amount) now }
          let g : TransactionRow → TransactionRow := fun t =>
            { t with status := .completed, processed_at := some now }
          (.ok (g txn),
           { db1 with transactions := updateRow TransactionRow.id db1.transactions transactionId g })

/-- One invocation of a balance-mutating handler: createTask (debit),
processTopup (credit) or processWithdrawal (debit). -/
inductive LedgerOp where
  | createTask (input : CreateTaskInput) (creatorId : Nat) (now : Nat)
  | processTopup (transactionId : Nat) (now : Nat)
  | processWithdrawal (transactionId : Nat) (now : Nat)
deriving DecidableEq, Repr

/-- Run one ledger operation, keeping the database it leaves behind whether
the handler returned or threw. -/
def applyOp (db : DB) : LedgerOp → DB
  | .createTask input creatorId now => (createTask db now input creatorId).2
  | .processTopup transactionId now => (processTopup db now transactionId).2
  | .processWithdrawal transactionId now => (processWithdrawal db now transactionId).2

/-- Run a sequence of ledger operations left to right. -/
def applyOps (db : DB) : List LedgerOp → DB
  | [] => db
  | op :: ops => applyOps (applyOp db op) ops

/-- The amount the operation credits to user uid in state db: the topup
amount when the handler reaches its balance update for uid, 0 otherwise.
Read off from the guards of processTopup, independently of its writes. -/
def opCredit (db : DB) (uid : Nat) : LedgerOp → Int
  | .createTask _ _ _ => 0
  | .processTopup transactionId _ =>
    match findTxn db transactionId with
    | some txn =>
      if txn.type = .topup ∧ txn.status = .pending ∧ txn.user_id = uid
          ∧ (findUser db txn.user_id).isSome then txn.amount
      else 0
    | none => 0
  | .processWithdrawal _ _ => 0

/-- The amount the operation debits from user uid in state db: the task
allocation cost or the withdrawal amount when the handler reaches its balance
update for uid, 0 otherwise. Read off from the guards of createTask and
processWithdrawal, independently of their writes. -/
def opDebit (db : DB) (uid : Nat) : LedgerOp → Int
  | .createTask input creatorId _ =>
    if creatorId = uid then
      match findUser db creatorId with
      | some creator =>
        if creator.coin_balance < input.target_interactions * input.coins_per_interaction
        then 0
        else input.target_interactions * input.coins_per_interaction
      | none => 0
    else 0
  | .processTopup _ _ => 0
  | .processWithdrawal transactionId _ =>
    match findTxn db transactionId with
    | some txn =>
      if txn.type = .withdrawal ∧ txn.status = .pending ∧ txn.user_id = uid then
        match findUser db txn.user_id with
        | some user => if user.coin_balance < txn.amount then 0 else txn.amount
        | none => 0
      else 0
    | none => 0

/-- Total credited to uid along a run, each step measured in the state in
which it executes. -/
def runCredits (db : DB) (uid : Nat) : List LedgerOp → Int
  | [] => 0
  | op :: ops => opCredit db uid op + runCredits (applyOp db op) uid ops

/-- Total debited from uid along a run. -/
def runDebits (db : DB) (uid : Nat) : List LedgerOp → Int
  | [] => 0
  | op :: ops => opDebit db uid op + runDebits (applyOp db op) uid ops

/-- Every topup transaction on file has a non-negative amount. The handlers
never enforce this (createTransactionInputSchema allows any integer), but it
is the side condition under which the non-negativity invariant holds. -/
def topupsNonneg (db : DB) : Prop :=
  ∀ t ∈ db.transactions, t.type = TransactionType.topup → 0 ≤ t.amount

/-- A store with one user at balance 0 and one pending topup of amount -1
(createTransactionInputSchema places no sign constraint on amounts). -/
def negTopupDB : DB :=
  { users := [{ id := 1, coin_balance := 0, updated_at := 0 }]
    tasks := []
    task_works := []
    transactions :=
      [{ id := 1, user_id := 1, type := TransactionType.topup,
         amount := -1, status := TransactionStatus.pending, payment_method := none,
         external_transaction_id := none, description := "Coin topup",
         metadata := none, created_at := 0, processed_at := none }]
    next_task_id := 1
    next_work_id := 1
    next_transaction_id := 2 }

/-- A store with one user at balance 0 and one pending topup of amount 5. -/
def posTopupDB : DB :=
  { users := [{ id := 1, coin_balance := 0, updated_at := 0 }]
    tasks := []
    task_works := []
    transactions :=
      [{ id := 1, user_id := 1, type := TransactionType.topup,
         amount := 5, status := TransactionStatus.pending, payment_method := none,
         external_transaction_id := none, description := "Coin topup",
         metadata := none, created_at := 0, processed_at := none }]
    next_task_id := 1
    next_work_id := 1
    next_transaction_id := 2 }

/-- A store with one creator (id 1, balance 10) and one other user (id 2). -/
def creatorDB : DB :=
  { users := [{ id := 1, coin_balance := 10, updated_at := 0 },
              { id := 2, coin_balance := 0, updated_at := 0 }]
    tasks := []
    task_works := []
    transactions := []
    next_task_id := 1
    next_work_id := 1
    next_transaction_id := 1 }

/-- A store with a creator (id 1), a worker (id 2), one active task of
creator 1 (target 2, price 3) and one pending task work of worker 2 on it. -/
def pendingWorkDB : DB :=
  { users := [{ id := 1, coin_balance := 4, updated_at := 0 },
              { id := 2, coin_balance := 0, updated_at := 0 }]
    tasks :=
      [{ id := 1, creator_id := 1, target_interactions := 2,
         completed_interactions := 0, coins_per_interaction := 3,
         total_coins_allocated := 6, status := TaskStatus.active,
         created_at := 0, updated_at := 0 }]
    task_works :=
      [{ id := 1, task_id := 1, worker_id := 2, coins_earned := 3,
         completed_at := 0, verified_at := none, verification_method := none,
         proof_screenshot := none, admin_notes := none }]
    transactions := []
    next_task_id := 2
    next_work_id := 2
    next_transaction_id := 1 }

/-- pendingWorkDB before any work was submitted: the same users and task but
an empty task_works table. -/
def freshTaskDB : DB :=
  { users := [{ id := 1, coin_balance := 4, updated_at := 0 },
              { id := 2, coin_balance := 0, updated_at := 0 }]
    tasks :=
      [{ id := 1, creator_id := 1, target_interactions := 2,
         completed_interactions := 0, coins_per_interaction := 3,
         total_coins_allocated := 6, status := TaskStatus.active,
         created_at := 0, updated_at := 0 }]
    task_works := []
    transactions := []
    next_task_id := 2
    next_work_id := 1
    next_transaction_id := 1 }

/-- A store with one user at balance 3 and one pending withdrawal of amount 5
(created earlier when the pre-check passed, before the balance dropped). -/
def lowBalanceDB : DB :=
  { users := [{ id := 1, coin_balance := 3, updated_at := 0 }]
    tasks := []
    task_works := []
    transactions :=
      [{ id := 1, user_id := 1, type := TransactionType.withdrawal,
         amount := 5, status := TransactionStatus.pending, payment_method := none,
         external_transaction_id := none, description := "Withdrawal",
         metadata := none, created_at := 0, processed_at := none }]
    next_task_id := 1
    next_work_id := 1
    next_transaction_id := 2 }

/-- The write-side price conversion of the implemented coin-packages handler
(`Math.round(input.price * 100)`): JavaScript Math.round rounds half towards
positive infinity, which is ⌊x + 1/2⌋, and createCoinPackageInputSchema
admits only positive prices, so no negative case arises. JavaScript numbers
are idealised as exact rationals. -/
def priceToCents (p : ℚ) : ℤ := ⌊p * 100 + 1 / 2⌋

/-- The read-side price conversion of the implemented coin-packages handler
(`parseFloat((pkg.price / 100).toFixed(2))`): an integer number of cents
divided by 100 has at most two decimal places, so rendering with toFixed(2)
and parsing back is exact division by 100. -/
def centsToPrice (c : ℤ) : ℚ := (c : ℚ) / 100

/-- A row of coinPackagesTable (price stored as integer cents per the schema
comment on db/schema.ts line 110). -/
structure CoinPackageRow where
  id : Nat
  name : String
  coin_amount : Int
  price : Int
  bonus_coins : Int
  is_active : Bool
  created_at : Nat
  updated_at : Nat
deriving DecidableEq, Repr

/-- The API-facing CoinPackage shape the handlers return: the same row with
the price converted back to a major-unit decimal. -/
structure CoinPackage where
  id : Nat
  name : String
  coin_amount : Int
  price : ℚ
  bonus_coins : Int
  is_active : Bool
deriving DecidableEq, Repr

/-- The `{ ...pkg, price: parseFloat((pkg.price / 100).toFixed(2)) }`
spread every coin-package handler returns. -/
def toApiPackage (pkg : CoinPackageRow) : CoinPackage :=
  { id := pkg.id, name := pkg.name, coin_amount := pkg.coin_amount,
    price := centsToPrice pkg.price, bonus_coins := pkg.bonus_coins,
    is_active := pkg.is_active }

/-- Input of createCoinPackage (createCoinPackageInputSchema: price is a
positive decimal in major units, bonus_coins optional). -/
structure CreateCoinPackageInput where
  name : String
  coin_amount : Int
  price : ℚ
  bonus_coins : Option Int
deriving DecidableEq, Repr

/-- createCoinPackage of the implemented coin-packages handler: inserts a row
with the price converted to cents by Math.round(input.price * 100),
bonus_coins defaulted by `input.bonus_coins || 0`, is_active defaulting to
true per the schema, and returns the row with the price converted back. -/
def createCoinPackage (pkgs : List CoinPackageRow) (nextId : Nat) (now : Nat)
    (input : CreateCoinPackageInput) : CoinPackage × List CoinPackageRow :=
  let row : CoinPackageRow := {
    id := nextId
    name := input.name
    coin_amount := input.coin_amount
    price := priceToCents input.price
    bonus_coins := input.bonus_coins.getD 0
    is_active := true
    created_at := now
    updated_at := now }
  (toApiPackage row, pkgs ++ [row])

/-- getCoinPackageById of the implemented coin-packages handler: looks the
row up by id and returns it with the price converted back to major units
(null when absent). -/
def getCoinPackageById (pkgs : List CoinPackageRow) (i : Nat) : Option CoinPackage :=
  (findRow CoinPackageRow.id pkgs i).map toApiPackage

/-- A store with one user at balance 0, a pending withdrawal of amount -3 and
a pending topup of amount -5. -/
def negAmountsDB : DB :=
  { users := [{ id := 1, coin_balance := 0, updated_at := 0 }]
    tasks := []
    task_works := []
    transactions :=
      [{ id := 1, user_id := 1, type := TransactionType.withdrawal,
         amount := -3, status := TransactionStatus.pending,
         payment_method := none, external_transaction_id := none,
         description := "Withdrawal", metadata := none, created_at := 0,
         processed_at := none },
       { id := 2, user_id := 1, type := TransactionType.topup,
         amount := -5, status := TransactionStatus.pending,
         payment_method := none, external_transaction_id := none,
         description := "Coin topup", metadata := none, created_at := 0,
         processed_at := none }]
    next_task_id := 1
    next_work_id := 1
    next_transaction_id := 3 }

theorem updateRow_cons {α : Type} (getId : α → Nat) (r : α) (rest : List α)
    (i : Nat) (g : α → α) :
    updateRow getId (r :: rest) i g
      = (if getId r = i then g r else r) :: updateRow getId rest i g := rfl

theorem findRow_updateRow_self {α : Type} (getId : α → Nat) (g : α → α)
    (hg : ∀ r, getId (g r) = getId r) (l : List α) (i : Nat) :
    findRow getId (updateRow getId l i g) i = (findRow getId l i).map g := by
  induction l with
  | nil => rfl
  | cons r rest ih =>
    rw [updateRow_cons]
    by_cases h : getId r = i
    · simp [findRow, h, hg r]
    · simp [findRow, h, ih]

theorem findRow_updateRow_ne {α : Type} (getId : α → Nat) (g : α → α)
    (hg : ∀ r, getId (g r) = getId r) (l : List α) (i j : Nat) (h : i ≠ j) :
    findRow getId (updateRow getId l i g) j = findRow getId l j := by
  induction l with
  | nil => rfl
  | cons r rest ih =>
    rw [updateRow_cons]
    by_cases hr : getId r = i
    · have hgr : getId (g r) = i := (hg r).trans hr
      have hrj : getId r ≠ j := by rw [hr]; exact h
      have hgrj : getId (g r) ≠ j := by rw [hgr]; exact h
      simp [findRow, hr, hgrj, hrj, ih, h]
    · simp [findRow, hr, ih]

theorem findRow_mem {α : Type} (getId : α → Nat) (l : List α) (i : Nat) (r : α)
    (h : findRow getId l i = some r) : r ∈ l := by
  induction l with
  | nil => simp [findRow] at h
  | cons a rest ih =>
    by_cases ha : getId a = i
    · simp [findRow, ha] at h
      simp [h]
    · simp [findRow, ha] at h
      exact List.mem_cons_of_mem a (ih h)

theorem mem_updateRow {α : Type} (getId : α → Nat) (l : List α) (i : Nat)
    (g : α → α) (r : α) (h : r ∈ updateRow getId l i g) :
    r ∈ l ∨ ∃ s ∈ l, r = g s := by
  unfold updateRow at h
  rcases List.mem_map.mp h with ⟨s, hs, hr⟩
  by_cases hid : getId s = i
  · right
    exact ⟨s, hs, by simp [hid] at hr; exact hr.symm⟩
  · left
    simp [hid] at hr
    exact hr ▸ hs

theorem findRow_setBalance_self (l : List UserRow) (tgt : Nat) (newBal : Int)
    (now : Nat) :
    findRow UserRow.id (setBalance l tgt newBal now) tgt
      = (findRow UserRow.id l tgt).map fun u =>
          { u with coin_balance := newBal, updated_at := now } :=
  findRow_updateRow_self UserRow.id
    (fun u => { u with coin_balance := newBal, updated_at := now })
    (fun _ => rfl) l tgt

theorem findRow_setBalance_ne (l : List UserRow) (tgt uid : Nat) (newBal : Int)
    (now : Nat) (h : tgt ≠ uid) :
    findRow UserRow.id (setBalance l tgt newBal now) uid = findRow UserRow.id l uid :=
  findRow_updateRow_ne UserRow.id
    (fun u => { u with coin_balance := newBal, updated_at := now })
    (fun _ => rfl) l tgt uid h

theorem balOf_setBalance_self {tasks2 : List TaskRow} {works2 : List TaskWorkRow}
    {txns2 : List TransactionRow} {a b c : Nat} (db : DB)
    (tgt : Nat) (newBal : Int) (now : Nat) (u : UserRow)
    (hu : findUser db tgt = some u) :
    balOf (DB.mk (setBalance db.users tgt newBal now) tasks2 works2 txns2 a b c) tgt
      = newBal := by
  unfold balOf findUser at *
  simp [findRow_setBalance_self, hu]

theorem balOf_setBalance_ne {tasks2 : List TaskRow} {works2 : List TaskWorkRow}
    {txns2 : List TransactionRow} {a b c : Nat} (db : DB)
    (tgt uid : Nat) (newBal : Int) (now : Nat) (h : tgt ≠ uid) :
    balOf (DB.mk (setBalance db.users tgt newBal now) tasks2 works2 txns2 a b c) uid
      = balOf db uid := by
  unfold balOf findUser
  simp only [findRow_setBalance_ne db.users tgt uid newBal now h]

theorem balOf_same_users {tasks2 : List TaskRow} {works2 : List TaskWorkRow}
    {txns2 : List TransactionRow} {a b c : Nat} (db : DB) (uid : Nat) :
    balOf (DB.mk db.users tasks2 works2 txns2 a b c) uid = balOf db uid := rfl

/-- Each ledger operation moves the observed balance of every user by exactly
the credit minus the debit that the operation performs for that user. -/
theorem applyOp_balOf (db : DB) (uid : Nat) (op : LedgerOp) :
    balOf (applyOp db op) uid = balOf db uid + opCredit db uid op - opDebit db uid op := by
  cases op with
  | createTask input cid now =>
    simp only [applyOp, createTask, opCredit, opDebit]
    cases h : findUser db cid with
    | none => by_cases hc : cid = uid <;> simp [h, hc]
    | some creator =>
      by_cases hb : creator.coin_balance < input.target_interactions * input.coins_per_interaction
      · by_cases hc : cid = uid <;> simp [h, hb, hc]
      · by_cases hc : cid = uid
        · subst hc
          simp only [hb, if_false, if_true]
          rw [balOf_setBalance_self db cid _ now creator h]
          have hbal : balOf db cid = creator.coin_balance := by
            unfold balOf; rw [h]
          simp [hbal, hb]
        · simp only [hb, if_false]
          rw [balOf_setBalance_ne db cid uid _ now hc]
          simp [hc]
  | processTopup tid now =>
    simp only [applyOp, processTopup, opCredit, opDebit]
    cases h : findTxn db tid with
    | none => simp [h]
    | some txn =>
      by_cases hty : txn.type = TransactionType.topup
      · by_cases hst : txn.status = TransactionStatus.pending
        · cases hu : findUser db txn.user_id with
          | none => simp [h, hty, hst, hu]
          | some user =>
            by_cases huid : txn.user_id = uid
            · subst huid
              simp only [h, hty, hst, hu, ne_eq, not_true_eq_false, if_false,
                Option.isSome_some]
              rw [balOf_setBalance_self db txn.user_id _ now user hu]
              have hbal : balOf db txn.user_id = user.coin_balance := by
                unfold balOf; rw [hu]
              simp [hbal, hty, hst, hu]
            · simp only [h, hty, hst, hu, ne_eq, not_true_eq_false, if_false]
              rw [balOf_setBalance_ne db txn.user_id uid _ now huid]
              simp [hty, hst, huid]
        · simp [h, hty, hst]
      · simp [h, hty]
  | processWithdrawal tid now =>
    simp only [applyOp, processWithdrawal, opCredit, opDebit]
    cases h : findTxn db tid with
    | none => simp [h]
    | some txn =>
      by_cases hty : txn.type = TransactionType.withdrawal
      · by_cases hst : txn.status = TransactionStatus.pending
        · cases hu : findUser db txn.user_id with
          | none => simp [h, hty, hst, hu]
          | some user =>
            by_cases hins : user.coin_balance < txn.amount
            · simp only [h, hty, hst, hu, hins, ne_eq, not_true_eq_false, if_false, if_true]
              rw [balOf_same_users]
              by_cases huid : txn.user_id = uid <;> simp [hty, hst, huid, hu, hins]
            · by_cases huid : txn.user_id = uid
              · subst huid
                simp only [h, hty, hst, hu, hins, ne_eq, not_true_eq_false, if_false]
                rw [balOf_setBalance_self db txn.user_id _ now user hu]
                have hbal : balOf db txn.user_id = user.coin_balance := by
                  unfold balOf; rw [hu]
                simp [hbal, hty, hst, hu, hins]
              · simp only [h, hty, hst, hu, hins, ne_eq, not_true_eq_false, if_false]
                rw [balOf_setBalance_ne db txn.user_id uid _ now huid]
                simp [hty, hst, huid]
        · simp [h, hty, hst]
      · simp [h, hty]

/-- Every transaction row present after a ledger operation has the amount and
type of a row that was present before: the ledger handlers rewrite only
status and processed_at. -/
theorem applyOp_txn_preserved (db : DB) (op : LedgerOp) (t : TransactionRow)
    (ht : t ∈ (applyOp db op).transactions) :
    ∃ s ∈ db.transactions, t.amount = s.amount ∧ t.type = s.type := by
  cases op with
  | createTask input cid now =>
    refine ⟨t, ?_, rfl, rfl⟩
    simp only [applyOp, createTask] at ht
    cases h : findUser db cid with
    | none => simpa [h] using ht
    | some creator =>
      by_cases hb : creator.coin_balance < input.target_interactions * input.coins_per_interaction
      · simpa [h, hb] using ht
      · simpa [h, hb] using ht
  | processTopup tid now =>
    simp only [applyOp, processTopup] at ht
    cases h : findTxn db tid with
    | none => exact ⟨t, by simpa [h] using ht, rfl, rfl⟩
    | some txn =>
      by_cases hty : txn.type = TransactionType.topup
      · by_cases hst : txn.status = TransactionStatus.pending
        · cases hu : findUser db txn.user_id with
          | none => exact ⟨t, by simpa [h, hty, hst, hu] using ht, rfl, rfl⟩
          | some user =>
            simp only [h, hty, hst, hu, ne_eq, not_true_eq_false, if_false] at ht
            rcases mem_updateRow TransactionRow.id _ tid _ t ht with hmem | ⟨s, hs, hgs⟩
            · exact ⟨t, hmem, rfl, rfl⟩
            · exact ⟨s, hs, by rw [hgs], by rw [hgs]⟩
        · exact ⟨t, by simpa [h, hty, hst] using ht, rfl, rfl⟩
      · exact ⟨t, by simpa [h, hty] using ht, rfl, rfl⟩
  | processWithdrawal tid now =>
    simp only [applyOp, processWithdrawal] at ht
    cases h : findTxn db tid with
    | none => exact ⟨t, by simpa [h] using ht, rfl, rfl⟩
    | some txn =>
      by_cases hty : txn.type = TransactionType.withdrawal
      · by_cases hst : txn.status = TransactionStatus.pending
        · cases hu : findUser db txn.user_id with
          | none => exact ⟨t, by simpa [h, hty, hst, hu] using ht, rfl, rfl⟩
          | some user =>
            by_cases hins : user.coin_balance < txn.amount
            · simp only [h, hty, hst, hu, hins, ne_eq, not_true_eq_false, if_false,
                if_true] at ht
              rcases mem_updateRow TransactionRow.id _ tid _ t ht with hmem | ⟨s, hs, hgs⟩
              · exact ⟨t, hmem, rfl, rfl⟩
              · exact ⟨s, hs, by rw [hgs], by rw [hgs]⟩
            · simp only [h, hty, hst, hu, hins, ne_eq, not_true_eq_false, if_false] at ht
              rcases mem_updateRow TransactionRow.id _ tid _ t ht with hmem | ⟨s, hs, hgs⟩
              · exact ⟨t, hmem, rfl, rfl⟩
              · exact ⟨s, hs, by rw [hgs], by rw [hgs]⟩
        · exact ⟨t, by simpa [h, hty, hst] using ht, rfl, rfl⟩
      · exact ⟨t, by simpa [h, hty] using ht, rfl, rfl⟩

theorem applyOp_topupsNonneg (db : DB) (op : LedgerOp) (h : topupsNonneg db) :
    topupsNonneg (applyOp db op) := by
  intro t ht htyp
  rcases applyOp_txn_preserved db op t ht with ⟨s, hs, ha, hty2⟩
  rw [ha]
  exact h s hs (hty2.symm.trans htyp)

/-- Credits are non-negative as long as every topup on file has a
non-negative amount. -/
theorem opCredit_nonneg (db : DB) (uid : Nat) (op : LedgerOp)
    (ht : topupsNonneg db) : 0 ≤ opCredit db uid op := by
  cases op with
  | createTask input cid now => simp [opCredit]
  | processWithdrawal tid now => simp [opCredit]
  | processTopup tid now =>
    simp only [opCredit]
    cases h : findTxn db tid with
    | none => simp
    | some txn =>
      by_cases hcond : txn.type = TransactionType.topup
          ∧ txn.status = TransactionStatus.pending ∧ txn.user_id = uid
          ∧ (findUser db txn.user_id).isSome
      · obtain ⟨h1, h2, h3, h4⟩ := hcond
        subst h3
        simpa [h1, h2, h4] using ht txn (findRow_mem TransactionRow.id _ tid txn h) h1
      · simp [hcond]

/-- A debit is either zero or bounded by the balance it is taken from: the
handlers debit only after checking coin_balance is at least the amount. -/
theorem opDebit_le_bal (db : DB) (uid : Nat) (op : LedgerOp) :
    opDebit db uid op = 0 ∨ opDebit db uid op ≤ balOf db uid := by
  cases op with
  | processTopup tid now => left; simp [opDebit]
  | createTask input cid now =>
    simp only [opDebit]
    by_cases hc : cid = uid
    · subst hc
      cases h : findUser db cid with
      | none => left; simp
      | some creator =>
        by_cases hb : creator.coin_balance < input.target_interactions * input.coins_per_interaction
        · left; simp [hb]
        · right
          have hbal : balOf db cid = creator.coin_balance := by unfold balOf; rw [h]
          simp [hb, hbal]
          exact not_lt.mp hb
    · left; simp [hc]
  | processWithdrawal tid now =>
    simp only [opDebit]
    cases h : findTxn db tid with
    | none => left; simp
    | some txn =>
      by_cases hcond : txn.type = TransactionType.withdrawal
          ∧ txn.status = TransactionStatus.pending ∧ txn.user_id = uid
      · obtain ⟨h1, h2, h3⟩ := hcond
        subst h3
        cases hu : findUser db txn.user_id with
        | none => left; simp [h1, h2, hu]
        | some user =>
          by_cases hins : user.coin_balance < txn.amount
          · left; simp [h1, h2, hu, hins]
          · right
            have hbal : balOf db txn.user_id = user.coin_balance := by
              unfold balOf; rw [hu]
            simp [h1, h2, hu, hins, hbal]
            exact not_lt.mp hins
      · left; simp [hcond]

theorem applyOp_nonneg (db : DB) (uid : Nat) (op : LedgerOp)
    (h0 : 0 ≤ balOf db uid) (ht : topupsNonneg db) :
    0 ≤ balOf (applyOp db op) uid := by
  rw [applyOp_balOf]
  have hc := opCredit_nonneg db uid op ht
  rcases opDebit_le_bal db uid op with hd | hd <;> linarith

/-- Balance accounting for a whole run of ledger operations. -/
theorem applyOps_balOf (db : DB) (uid : Nat) (ops : List LedgerOp) :
    balOf (applyOps db ops) uid
      = balOf db uid + runCredits db uid ops - runDebits db uid ops := by
  induction ops generalizing db with
  | nil => simp [applyOps, runCredits, runDebits]
  | cons op ops ih =>
    simp only [applyOps, runCredits, runDebits]
    rw [ih (applyOp db op), applyOp_balOf]
    ring

theorem applyOps_nonneg (uid : Nat) (ops : List LedgerOp) :
    ∀ db : DB, 0 ≤ balOf db uid → topupsNonneg db →
      0 ≤ balOf (applyOps db ops) uid := by
  induction ops with
  | nil => intro db h0 _; exact h0
  | cons op ops ih =>
    intro db h0 ht
    exact ih (applyOp db op) (applyOp_nonneg db uid op h0 ht)
      (applyOp_topupsNonneg db op ht)

/-- C1 counterexample: starting from the non-negative balance 0, the single
ledger operation processTopup on a pending topup of amount -1 — a transaction
createTransaction accepts — leaves the balance at -1, refuting the claim that
the balance is never negative after any sequence of the balance-mutating
operations. -/
theorem claim1_counterexample :
    balOf negTopupDB 1 = 0
      ∧ balOf (applyOps negTopupDB [LedgerOp.processTopup 1 7]) 1 = -1 := by
  decide

/-- C1 (amended): for every user, after any sequence of the balance-mutating
operations (createTask debit, processTopup credit, processWithdrawal debit)
the coin_balance equals the initial balance plus the sum of amounts credited
minus the sum of amounts debited; and it is never negative provided the
initial balance is non-negative and every topup transaction on file has a
non-negative amount (without that proviso a negative-amount topup drives the
balance negative, see the counterexample). -/
theorem claim1_ledger_accounting_and_nonneg (db : DB) (uid : Nat)
    (ops : List LedgerOp) (h0 : 0 ≤ balOf db uid) (ht : topupsNonneg db) :
    balOf (applyOps db ops) uid
        = balOf db uid + runCredits db uid ops - runDebits db uid ops
      ∧ 0 ≤ balOf (applyOps db ops) uid :=
  ⟨applyOps_balOf db uid ops, applyOps_nonneg uid ops db h0 ht⟩

/-- Witness for C1 on a concrete store and run. -/
theorem claim1_witness :
    balOf (applyOps posTopupDB [LedgerOp.processTopup 1 7]) 1
        = balOf posTopupDB 1 + runCredits posTopupDB 1 [LedgerOp.processTopup 1 7]
            - runDebits posTopupDB 1 [LedgerOp.processTopup 1 7]
      ∧ 0 ≤ balOf (applyOps posTopupDB [LedgerOp.processTopup 1 7]) 1 :=
  claim1_ledger_accounting_and_nonneg posTopupDB 1 [LedgerOp.processTopup 1 7]
    (by decide) (by unfold topupsNonneg; decide)

/-- C2: for a creator on file, createTask with target T and price P debits the
creator by exactly T*P and appends a task with total_coins_allocated = T*P,
completed_interactions = 0 and status active when the balance is at least T*P;
when the balance is below T*P it throws the insufficient-balance error and
leaves the store untouched. -/
theorem claim2_createTask_correct (db : DB) (now : Nat) (input : CreateTaskInput)
    (creatorId : Nat) (creator : UserRow)
    (hc : findUser db creatorId = some creator) :
    (input.target_interactions * input.coins_per_interaction ≤ creator.coin_balance →
      ∃ task : TaskRow,
        (createTask db now input creatorId).1 = Except.ok task
        ∧ task.total_coins_allocated
            = input.target_interactions * input.coins_per_interaction
        ∧ task.completed_interactions = 0
        ∧ task.status = TaskStatus.active
        ∧ (createTask db now input creatorId).2.tasks = db.tasks ++ [task]
        ∧ balOf (createTask db now input creatorId).2 creatorId
            = creator.coin_balance
                - input.target_interactions * input.coins_per_interaction)
    ∧ (creator.coin_balance < input.target_interactions * input.coins_per_interaction →
        (createTask db now input creatorId).1 = Except.error "Insufficient coin balance"
        ∧ (createTask db now input creatorId).2 = db) := by
  constructor
  · intro hle
    have hb : ¬ creator.coin_balance
        < input.target_interactions * input.coins_per_interaction := not_lt.mpr hle
    simp only [createTask, hc, hb, if_false]
    exact ⟨_, rfl, rfl, rfl, rfl, rfl,
      balOf_setBalance_self db creatorId _ now creator hc⟩
  · intro hlt
    constructor
    · simp [createTask, hc, hlt]
    · simp [createTask, hc, hlt]

/-- C3: on the pending work of pendingWorkDB, verifyTaskWork succeeds and
stamps verified_at and verification_method, yet the worker balance and the
task completed_interactions counter are exactly as before: the handler
performs neither the balance credit of coins_earned nor the counter increment
that the claim requires. -/
theorem claim3_verify_credits_nothing :
    isOk (verifyTaskWork pendingWorkDB 5 ⟨1, "manual", none⟩).1 = true
    ∧ (findWork (verifyTaskWork pendingWorkDB 5 ⟨1, "manual", none⟩).2 1).map
        TaskWorkRow.verified_at = some (some 5)
    ∧ (findWork (verifyTaskWork pendingWorkDB 5 ⟨1, "manual", none⟩).2 1).map
        TaskWorkRow.coins_earned = some 3
    ∧ (verifyTaskWork pendingWorkDB 5 ⟨1, "manual", none⟩).2.users
        = pendingWorkDB.users
    ∧ balOf (verifyTaskWork pendingWorkDB 5 ⟨1, "manual", none⟩).2 2 = 0
    ∧ (verifyTaskWork pendingWorkDB 5 ⟨1, "manual", none⟩).2.tasks
        = pendingWorkDB.tasks
    ∧ (findTask (verifyTaskWork pendingWorkDB 5 ⟨1, "manual", none⟩).2 1).map
        TaskRow.completed_interactions = some 0 := by
  decide

/-- C4: on the pending work of pendingWorkDB, rejectTaskWork does set
coins_earned to 0, verification_method to manual_rejection and admin_notes to
the reason while leaving verified_at null — but precisely because verified_at
stays null, a second rejectTaskWork on the same work succeeds, and so does a
verifyTaskWork, instead of failing as the claim requires. -/
theorem claim4_reject_allows_reprocessing :
    isOk (rejectTaskWork pendingWorkDB 1 "bad proof").1 = true
    ∧ findWork (rejectTaskWork pendingWorkDB 1 "bad proof").2 1
        = some { id := 1, task_id := 1, worker_id := 2, coins_earned := 0,
                 completed_at := 0, verified_at := none,
                 verification_method := some "manual_rejection",
                 proof_screenshot := none, admin_notes := some "bad proof" }
    ∧ isOk (rejectTaskWork (rejectTaskWork pendingWorkDB 1 "bad proof").2
        1 "again").1 = true
    ∧ isOk (verifyTaskWork (rejectTaskWork pendingWorkDB 1 "bad proof").2
        9 ⟨1, "manual", none⟩).1 = true := by
  decide

/-- Witness for C2: creating a 2-interaction task at 3 coins each from a
balance of 10 succeeds and leaves balance 4. -/
theorem claim2_witness :
    ∃ task : TaskRow,
      (createTask creatorDB 0 ⟨2, 3⟩ 1).1 = Except.ok task
      ∧ task.total_coins_allocated = 2 * 3
      ∧ task.completed_interactions = 0
      ∧ task.status = TaskStatus.active
      ∧ (createTask creatorDB 0 ⟨2, 3⟩ 1).2.tasks = creatorDB.tasks ++ [task]
      ∧ balOf (createTask creatorDB 0 ⟨2, 3⟩ 1).2 1 = 10 - 2 * 3 := by
  have h := claim2_createTask_correct creatorDB 0 ⟨2, 3⟩ 1
    { id := 1, coin_balance := 10, updated_at := 0 } (by decide)
  exact h.1 (by decide)

/-- C5: for a task and worker on file, createTaskWork throws and leaves the
store untouched whenever the task is not active, its target is reached, a
(task, worker) row already exists, or the worker is the creator; otherwise it
appends exactly one pending row (verified_at null) earning the task's
coins_per_interaction, touching no other table. -/
theorem claim5_createTaskWork_correct (db : DB) (now : Nat)
    (input : CreateTaskWorkInput) (workerId : Nat) (task : TaskRow)
    (htask : findTask db input.task_id = some task)
    (hworker : (findUser db workerId).isSome = true) :
    ((task.status ≠ TaskStatus.active
        ∨ task.target_interactions ≤ task.completed_interactions
        ∨ (∃ x ∈ db.task_works,
            x.task_id = input.task_id ∧ x.worker_id = workerId)
        ∨ task.creator_id = workerId) →
      isOk (createTaskWork db now input workerId).1 = false
      ∧ (createTaskWork db now input workerId).2 = db)
    ∧ (task.status = TaskStatus.active →
       task.completed_interactions < task.target_interactions →
       (¬ ∃ x ∈ db.task_works,
          x.task_id = input.task_id ∧ x.worker_id = workerId) →
       task.creator_id ≠ workerId →
      ∃ work : TaskWorkRow,
        (createTaskWork db now input workerId).1 = Except.ok work
        ∧ (createTaskWork db now input workerId).2.task_works
            = db.task_works ++ [work]
        ∧ work.verified_at = none
        ∧ work.coins_earned = task.coins_per_interaction
        ∧ work.task_id = input.task_id
        ∧ work.worker_id = workerId
        ∧ (createTaskWork db now input workerId).2.users = db.users
        ∧ (createTaskWork db now input workerId).2.tasks = db.tasks
        ∧ (createTaskWork db now input workerId).2.transactions
            = db.transactions) := by
  constructor
  · intro hdisj
    by_cases h1 : task.status = TaskStatus.active
    · by_cases h2 : task.target_interactions ≤ task.completed_interactions
      · constructor <;> simp [createTaskWork, isOk, htask, h1, h2]
      · cases hu : findUser db workerId with
        | none => rw [hu] at hworker; simp at hworker
        | some w =>
          by_cases h3 : ∃ x ∈ db.task_works,
              x.task_id = input.task_id ∧ x.worker_id = workerId
          · constructor <;> simp [createTaskWork, isOk, htask, h1, h2, hu, h3]
          · by_cases h4 : task.creator_id = workerId
            · constructor <;>
                simp [createTaskWork, isOk, htask, h1, h2, hu, h3, h4]
            · rcases hdisj with hd | hd | hd | hd
              · exact absurd h1 hd
              · exact absurd hd h2
              · exact absurd hd h3
              · exact absurd hd h4
    · constructor <;> simp [createTaskWork, isOk, htask, h1]
  · intro h1 h2 hno h4
    cases hu : findUser db workerId with
    | none => rw [hu] at hworker; simp at hworker
    | some w =>
      have h2n : ¬ task.target_interactions ≤ task.completed_interactions :=
        not_le.mpr h2
      refine ⟨{ id := db.next_work_id, task_id := input.task_id,
                worker_id := workerId,
                coins_earned := task.coins_per_interaction,
                completed_at := now, verified_at := none,
                verification_method := none,
                proof_screenshot := input.proof_screenshot,
                admin_notes := none },
              ?_, ?_, rfl, rfl, rfl, rfl, ?_, ?_, ?_⟩ <;>
        simp [createTaskWork, htask, h1, h2n, hu, hno, h4]

/-- Witness for C5: worker 2 taking the fresh task of freshTaskDB gets a
pending work row at 3 coins. -/
theorem claim5_witness :
    ∃ work : TaskWorkRow,
      (createTaskWork freshTaskDB 4 ⟨1, none⟩ 2).1 = Except.ok work
      ∧ (createTaskWork freshTaskDB 4 ⟨1, none⟩ 2).2.task_works
          = freshTaskDB.task_works ++ [work]
      ∧ work.verified_at = none
      ∧ work.coins_earned = 3
      ∧ work.task_id = 1
      ∧ work.worker_id = 2
      ∧ (createTaskWork freshTaskDB 4 ⟨1, none⟩ 2).2.users = freshTaskDB.users
      ∧ (createTaskWork freshTaskDB 4 ⟨1, none⟩ 2).2.tasks = freshTaskDB.tasks
      ∧ (createTaskWork freshTaskDB 4 ⟨1, none⟩ 2).2.transactions
          = freshTaskDB.transactions := by
  have h := claim5_createTaskWork_correct freshTaskDB 4 ⟨1, none⟩ 2
    { id := 1, creator_id := 1, target_interactions := 2,
      completed_interactions := 0, coins_per_interaction := 3,
      total_coins_allocated := 6, status := TaskStatus.active,
      created_at := 0, updated_at := 0 } (by decide) (by decide)
  exact h.2 (by decide) (by decide) (by decide) (by decide)

/-- C6: on a pending topup on file whose owner exists, processTopup succeeds,
credits the owner by exactly the amount, marks the transaction completed with
processed_at stamped; and a second processTopup on the same transaction
throws and changes nothing further. -/
theorem claim6_processTopup_correct (db : DB) (now now2 : Nat) (tid : Nat)
    (txn : TransactionRow) (user : UserRow)
    (htxn : findTxn db tid = some txn)
    (hty : txn.type = TransactionType.topup)
    (hst : txn.status = TransactionStatus.pending)
    (hu : findUser db txn.user_id = some user) :
    isOk (processTopup db now tid).1 = true
    ∧ balOf (processTopup db now tid).2 txn.user_id
        = user.coin_balance + txn.amount
    ∧ (findTxn (processTopup db now tid).2 tid).map TransactionRow.status
        = some TransactionStatus.completed
    ∧ (findTxn (processTopup db now tid).2 tid).map TransactionRow.processed_at
        = some (some now)
    ∧ isOk (processTopup (processTopup db now tid).2 now2 tid).1 = false
    ∧ (processTopup (processTopup db now tid).2 now2 tid).2
        = (processTopup db now tid).2 := by
  have htxn2 : findRow TransactionRow.id db.transactions tid = some txn := htxn
  have hred : processTopup db now tid
      = (Except.ok
           { txn with
             status := TransactionStatus.completed
             processed_at := some now },
         { db with
           users := setBalance db.users txn.user_id
             (user.coin_balance + txn.amount) now
           transactions := updateRow TransactionRow.id db.transactions tid
             fun t =>
               { t with
                 status := TransactionStatus.completed
                 processed_at := some now } }) := by
    simp [processTopup, htxn, hty, hst, hu]
  have hfind : findTxn (processTopup db now tid).2 tid
      = some
          { txn with
            status := TransactionStatus.completed
            processed_at := some now } := by
    rw [hred]
    unfold findTxn
    rw [findRow_updateRow_self TransactionRow.id
      (fun t =>
        { t with
          status := TransactionStatus.completed
          processed_at := some now }) (fun t => rfl) db.transactions tid, htxn2]
    rfl
  have h2nd : processTopup (processTopup db now tid).2 now2 tid
      = (Except.error "Transaction is not pending", (processTopup db now tid).2) := by
    generalize hdb2 : (processTopup db now tid).2 = db2 at hfind ⊢
    simp [processTopup, hfind, hty]
  refine ⟨by rw [hred]; rfl, ?_, ?_, ?_, by rw [h2nd]; rfl, by rw [h2nd]⟩
  · rw [hred]
    exact balOf_setBalance_self db txn.user_id _ now user hu
  · rw [hfind]
    rfl
  · rw [hfind]
    rfl

/-- Witness for C6 on posTopupDB: the pending topup of amount 5 credits user 1
from 0 to 5 and completes; a second processTopup fails without effect. -/
theorem claim6_witness :
    isOk (processTopup posTopupDB 3 1).1 = true
    ∧ balOf (processTopup posTopupDB 3 1).2 1 = 0 + 5
    ∧ (findTxn (processTopup posTopupDB 3 1).2 1).map TransactionRow.status
        = some TransactionStatus.completed
    ∧ (findTxn (processTopup posTopupDB 3 1).2 1).map TransactionRow.processed_at
        = some (some 3)
    ∧ isOk (processTopup (processTopup posTopupDB 3 1).2 8 1).1 = false
    ∧ (processTopup (processTopup posTopupDB 3 1).2 8 1).2
        = (processTopup posTopupDB 3 1).2 := by
  have h := claim6_processTopup_correct posTopupDB 3 8 1
    { id := 1, user_id := 1, type := TransactionType.topup, amount := 5,
      status := TransactionStatus.pending, payment_method := none,
      external_transaction_id := none, description := "Coin topup",
      metadata := none, created_at := 0, processed_at := none }
    { id := 1, coin_balance := 0, updated_at := 0 }
    (by decide) (by decide) (by decide) (by decide)
  exact h

/-- C7: on a pending withdrawal on file whose owner exists, processWithdrawal
with insufficient balance marks the transaction failed with processed_at
stamped, throws the insufficient-balance error and leaves every user row (and
so the balance) unchanged; with sufficient balance it debits the owner by
exactly the amount and marks the transaction completed. -/
theorem claim7_processWithdrawal_correct (db : DB) (now : Nat) (tid : Nat)
    (txn : TransactionRow) (user : UserRow)
    (htxn : findTxn db tid = some txn)
    (hty : txn.type = TransactionType.withdrawal)
    (hst : txn.status = TransactionStatus.pending)
    (hu : findUser db txn.user_id = some user) :
    (user.coin_balance < txn.amount →
      (processWithdrawal db now tid).1 = Except.error "Insufficient coin balance"
      ∧ (findTxn (processWithdrawal db now tid).2 tid).map TransactionRow.status
          = some TransactionStatus.failed
      ∧ (findTxn (processWithdrawal db now tid).2 tid).map
          TransactionRow.processed_at = some (some now)
      ∧ (processWithdrawal db now tid).2.users = db.users
      ∧ balOf (processWithdrawal db now tid).2 txn.user_id = user.coin_balance)
    ∧ (txn.amount ≤ user.coin_balance →
      isOk (processWithdrawal db now tid).1 = true
      ∧ balOf (processWithdrawal db now tid).2 txn.user_id
          = user.coin_balance - txn.amount
      ∧ (findTxn (processWithdrawal db now tid).2 tid).map TransactionRow.status
          = some TransactionStatus.completed
      ∧ (findTxn (processWithdrawal db now tid).2 tid).map
          TransactionRow.processed_at = some (some now)) := by
  have htxn2 : findRow TransactionRow.id db.transactions tid = some txn := htxn
  constructor
  · intro hins
    have hred : processWithdrawal db now tid
        = (Except.error "Insufficient coin balance",
           { db with
             transactions := updateRow TransactionRow.id db.transactions tid
               fun t =>
                 { t with
                   status := TransactionStatus.failed
                   processed_at := some now } }) := by
      simp [processWithdrawal, htxn, hty, hst, hu, hins]
    have hfind : findTxn (processWithdrawal db now tid).2 tid
        = some
            { txn with
              status := TransactionStatus.failed
              processed_at := some now } := by
      rw [hred]
      unfold findTxn
      rw [findRow_updateRow_self TransactionRow.id
        (fun t =>
          { t with
            status := TransactionStatus.failed
            processed_at := some now }) (fun t => rfl) db.transactions tid, htxn2]
      rfl
    refine ⟨by rw [hred], by rw [hfind]; rfl, by rw [hfind]; rfl,
      by rw [hred], ?_⟩
    rw [hred, balOf_same_users db txn.user_id]
    unfold balOf
    rw [hu]
  · intro hsuff
    have hins : ¬ user.coin_balance < txn.amount := not_lt.mpr hsuff
    have hred : processWithdrawal db now tid
        = (Except.ok
             { txn with
               status := TransactionStatus.completed
               processed_at := some now },
           { db with
             users := setBalance db.users txn.user_id
               (user.coin_balance - txn.amount) now
             transactions := updateRow TransactionRow.id db.transactions tid
               fun t =>
                 { t with
                   status := TransactionStatus.completed
                   processed_at := some now } }) := by
      simp [processWithdrawal, htxn, hty, hst, hu, hins]
    have hfind : findTxn (processWithdrawal db now tid).2 tid
        = some
            { txn with
              status := TransactionStatus.completed
              processed_at := some now } := by
      rw [hred]
      unfold findTxn
      rw [findRow_updateRow_self TransactionRow.id
        (fun t =>
          { t with
            status := TransactionStatus.completed
            processed_at := some now }) (fun t => rfl) db.transactions tid, htxn2]
      rfl
    refine ⟨by rw [hred]; rfl, ?_, by rw [hfind]; rfl, by rw [hfind]; rfl⟩
    rw [hred]
    exact balOf_setBalance_self db txn.user_id _ now user hu

/-- Witness for C7 on lowBalanceDB: the withdrawal of 5 against balance 3
fails the transaction, throws, and leaves the balance at 3. -/
theorem claim7_witness :
    (processWithdrawal lowBalanceDB 4 1).1
        = Except.error "Insufficient coin balance"
    ∧ (findTxn (processWithdrawal lowBalanceDB 4 1).2 1).map
        TransactionRow.status = some TransactionStatus.failed
    ∧ (findTxn (processWithdrawal lowBalanceDB 4 1).2 1).map
        TransactionRow.processed_at = some (some 4)
    ∧ (processWithdrawal lowBalanceDB 4 1).2.users = lowBalanceDB.users
    ∧ balOf (processWithdrawal lowBalanceDB 4 1).2 1 = 3 := by
  have h := claim7_processWithdrawal_correct lowBalanceDB 4 1
    { id := 1, user_id := 1, type := TransactionType.withdrawal, amount := 5,
      status := TransactionStatus.pending, payment_method := none,
      external_transaction_id := none, description := "Withdrawal",
      metadata := none, created_at := 0, processed_at := none }
    { id := 1, coin_balance := 3, updated_at := 0 }
    (by decide) (by decide) (by decide) (by decide)
  exact h.1 (by decide)

theorem balOf_congr_users (db1 db2 : DB) (h : db1.users = db2.users)
    (uid : Nat) : balOf db1 uid = balOf db2 uid := by
  unfold balOf findUser
  rw [h]

/-- C8: updateTransaction never touches the users, tasks or task_works
tables — every balance reads the same after it, so marking a topup completed
through this path credits nothing — and it rewrites only the matching
transaction row: status is overwritten, external_transaction_id only when the
input carries the field, and processed_at is stamped exactly when the new
status is completed or failed. -/
theorem claim8_updateTransaction_frame (db : DB) (now : Nat)
    (input : UpdateTransactionInput) :
    (updateTransaction db now input).2.users = db.users
    ∧ (updateTransaction db now input).2.tasks = db.tasks
    ∧ (updateTransaction db now input).2.task_works = db.task_works
    ∧ (∀ uid : Nat, balOf (updateTransaction db now input).2 uid = balOf db uid)
    ∧ (updateTransaction db now input).2.transactions
        = (if (findTxn db input.id).isSome then
            updateRow TransactionRow.id db.transactions input.id fun t =>
              { t with
                status := input.status
                external_transaction_id :=
                  match input.external_transaction_id with
                  | none => t.external_transaction_id
                  | some v => v
                processed_at :=
                  if input.status = TransactionStatus.completed
                      ∨ input.status = TransactionStatus.failed then some now
                  else t.processed_at }
          else db.transactions) := by
  cases h : findTxn db input.id with
  | none =>
    refine ⟨?_, ?_, ?_, ?_, ?_⟩ <;> simp [updateTransaction, h]
  | some txn =>
    have husers : (updateTransaction db now input).2.users = db.users := by
      simp [updateTransaction, h]
    refine ⟨husers, ?_, ?_,
      fun uid => balOf_congr_users (updateTransaction db now input).2 db husers uid,
      ?_⟩ <;> simp [updateTransaction, h]

theorem findRow_append_of_none {α : Type} (getId : α → Nat) (l : List α)
    (i : Nat) (r : α) (h : findRow getId l i = none) :
    findRow getId (l ++ [r]) i = if getId r = i then some r else none := by
  induction l with
  | nil => rfl
  | cons a rest ih =>
    by_cases ha : getId a = i
    · simp [findRow, ha] at h
    · simp [findRow, ha] at h ⊢
      exact ih h

/-- C9: creating a coin package at a price that is a whole number of cents
(every externally visible decimal price such as 9.99) persists exactly that
integer number of cents, round-half-up on write; the handler returns the
package at the original price, and reading the fresh row back through
getCoinPackageById yields the original price again by exact division. -/
theorem claim9_price_roundtrip (pkgs : List CoinPackageRow) (nextId now : Nat)
    (input : CreateCoinPackageInput)
    (hfresh : findRow CoinPackageRow.id pkgs nextId = none)
    (hp : (input.price * 100).den = 1) :
    ∃ row : CoinPackageRow,
      (createCoinPackage pkgs nextId now input).2 = pkgs ++ [row]
      ∧ row.price = (input.price * 100).num
      ∧ (createCoinPackage pkgs nextId now input).1.price = input.price
      ∧ (getCoinPackageById (createCoinPackage pkgs nextId now input).2
          nextId).map CoinPackage.price = some input.price := by
  have hint : ((input.price * 100).num : ℚ) = input.price * 100 :=
    (Rat.den_eq_one_iff (input.price * 100)).mp hp
  have h1 : priceToCents input.price = (input.price * 100).num := by
    unfold priceToCents
    rw [← hint, Int.floor_int_add]
    norm_num
  have h2 : centsToPrice (priceToCents input.price) = input.price := by
    unfold centsToPrice
    rw [h1, hint]
    field_simp
  refine ⟨_, rfl, h1, h2, ?_⟩
  unfold getCoinPackageById createCoinPackage
  rw [findRow_append_of_none CoinPackageRow.id pkgs nextId _ hfresh]
  simp [toApiPackage, h2]

/-- Witness for C9 at price 9.99 into an empty package table: stored as 999
cents, returned and read back as 9.99. -/
theorem claim9_witness :
    ∃ row : CoinPackageRow,
      (createCoinPackage [] 1 0 ⟨"Premium Package", 1000, 999 / 100, none⟩).2
          = [] ++ [row]
      ∧ row.price = 999
      ∧ (createCoinPackage [] 1 0
          ⟨"Premium Package", 1000, 999 / 100, none⟩).1.price = 999 / 100
      ∧ (getCoinPackageById
          (createCoinPackage [] 1 0 ⟨"Premium Package", 1000, 999 / 100, none⟩).2
          1).map CoinPackage.price = some (999 / 100) := by
  obtain ⟨row, ha, hb, hc, hd⟩ :=
    claim9_price_roundtrip [] 1 0 ⟨"Premium Package", 1000, 999 / 100, none⟩
      (by decide) (by norm_num)
  refine ⟨row, ha, ?_, hc, hd⟩
  rw [hb]
  norm_num

/-- The success reduction of processTopup: with the row a pending topup and
the owner on file, the handler returns the completed row and the store with
the owner credited and the row stamped. -/
theorem processTopup_success_eq (db : DB) (now : Nat) (tid : Nat)
    (txn : TransactionRow) (user : UserRow)
    (htxn : findTxn db tid = some txn)
    (hty : txn.type = TransactionType.topup)
    (hst : txn.status = TransactionStatus.pending)
    (hu : findUser db txn.user_id = some user) :
    processTopup db now tid
      = (Except.ok
           { txn with
             status := TransactionStatus.completed
             processed_at := some now },
         { db with
           users := setBalance db.users txn.user_id
             (user.coin_balance + txn.amount) now
           transactions := updateRow TransactionRow.id db.transactions tid
             fun t =>
               { t with
                 status := TransactionStatus.completed
                 processed_at := some now } }) := by
  simp [processTopup, htxn, hty, hst, hu]

/-- The success reduction of processWithdrawal: with the row a pending
withdrawal, the owner on file and the balance sufficient, the handler returns
the completed row and the store with the owner debited and the row stamped. -/
theorem processWithdrawal_success_eq (db : DB) (now : Nat) (tid : Nat)
    (txn : TransactionRow) (user : UserRow)
    (htxn : findTxn db tid = some txn)
    (hty : txn.type = TransactionType.withdrawal)
    (hst : txn.status = TransactionStatus.pending)
    (hu : findUser db txn.user_id = some user)
    (hins : ¬ user.coin_balance < txn.amount) :
    processWithdrawal db now tid
      = (Except.ok
           { txn with
             status := TransactionStatus.completed
             processed_at := some now },
         { db with
           users := setBalance db.users txn.user_id
             (user.coin_balance - txn.amount) now
           transactions := updateRow TransactionRow.id db.transactions tid
             fun t =>
               { t with
                 status := TransactionStatus.completed
                 processed_at := some now } }) := by
  simp [processWithdrawal, htxn, hty, hst, hu, hins]

/-- C10: transaction amounts are never required to be positive. For a user on
file with a non-negative balance, createTransaction accepts a withdrawal of
any amount at most 0 (the pre-check balance < amount cannot fire);
processWithdrawal on a pending withdrawal of amount at most 0 passes the
re-check, completes and sets the balance to balance - amount, which is no
decrease; and processTopup on a pending topup of negative amount completes
and strictly decreases the balance. -/
theorem claim10_amounts_unvalidated (db : DB) (now : Nat) (userId : Nat)
    (user : UserRow) (hu : findUser db userId = some user)
    (h0 : 0 ≤ user.coin_balance)
    (inputW : CreateTransactionInput)
    (_hWty : inputW.type = TransactionType.withdrawal)
    (hWamt : inputW.amount ≤ 0)
    (wtid : Nat) (wtxn : TransactionRow)
    (hw : findTxn db wtid = some wtxn)
    (hwty : wtxn.type = TransactionType.withdrawal)
    (hwst : wtxn.status = TransactionStatus.pending)
    (hwuid : wtxn.user_id = userId) (hwamt : wtxn.amount ≤ 0)
    (ttid : Nat) (ttxn : TransactionRow)
    (htt : findTxn db ttid = some ttxn)
    (htty : ttxn.type = TransactionType.topup)
    (htst : ttxn.status = TransactionStatus.pending)
    (htuid : ttxn.user_id = userId) (htamt : ttxn.amount < 0) :
    isOk (createTransaction db now inputW userId).1 = true
    ∧ isOk (processWithdrawal db now wtid).1 = true
    ∧ balOf (processWithdrawal db now wtid).2 userId
        = user.coin_balance - wtxn.amount
    ∧ user.coin_balance ≤ balOf (processWithdrawal db now wtid).2 userId
    ∧ isOk (processTopup db now ttid).1 = true
    ∧ balOf (processTopup db now ttid).2 userId
        = user.coin_balance + ttxn.amount
    ∧ balOf (processTopup db now ttid).2 userId < user.coin_balance := by
  have huw : findUser db wtxn.user_id = some user := by rw [hwuid]; exact hu
  have hut : findUser db ttxn.user_id = some user := by rw [htuid]; exact hu
  have hinsW : ¬ user.coin_balance < wtxn.amount :=
    not_lt.mpr (le_trans hwamt h0)
  have hinsC : ¬ user.coin_balance < inputW.amount :=
    not_lt.mpr (le_trans hWamt h0)
  have hbw : balOf (processWithdrawal db now wtid).2 userId
      = user.coin_balance - wtxn.amount := by
    rw [processWithdrawal_success_eq db now wtid wtxn user hw hwty hwst huw hinsW,
      ← hwuid]
    exact balOf_setBalance_self db wtxn.user_id _ now user huw
  have hbt : balOf (processTopup db now ttid).2 userId
      = user.coin_balance + ttxn.amount := by
    rw [processTopup_success_eq db now ttid ttxn user htt htty htst hut, ← htuid]
    exact balOf_setBalance_self db ttxn.user_id _ now user hut
  refine ⟨?_, ?_, hbw, ?_, ?_, hbt, ?_⟩
  · simp [createTransaction, hu, isOk, hinsC]
  · rw [processWithdrawal_success_eq db now wtid wtxn user hw hwty hwst huw hinsW]
    rfl
  · rw [hbw]
    linarith
  · rw [processTopup_success_eq db now ttid ttxn user htt htty htst hut]
    rfl
  · rw [hbt]
    linarith

/-- Witness for C10 on negAmountsDB: the withdrawal of -3 completes and
raises the balance from 0 to 3; the topup of -5 completes and lowers it from
0 to -5. -/
theorem claim10_witness :
    isOk (createTransaction negAmountsDB 2
        ⟨TransactionType.withdrawal, -3, none, "Withdrawal", none⟩ 1).1 = true
    ∧ isOk (processWithdrawal negAmountsDB 2 1).1 = true
    ∧ balOf (processWithdrawal negAmountsDB 2 1).2 1 = 0 - (-3)
    ∧ (0 : Int) ≤ balOf (processWithdrawal negAmountsDB 2 1).2 1
    ∧ isOk (processTopup negAmountsDB 2 2).1 = true
    ∧ balOf (processTopup negAmountsDB 2 2).2 1 = 0 + (-5)
    ∧ balOf (processTopup negAmountsDB 2 2).2 1 < 0 := by
  have h := claim10_amounts_unvalidated negAmountsDB 2 1
    { id := 1, coin_balance := 0, updated_at := 0 } (by decide) (by decide)
    ⟨TransactionType.withdrawal, -3, none, "Withdrawal", none⟩ (by decide)
    (by decide) 1
    { id := 1, user_id := 1, type := TransactionType.withdrawal, amount := -3,
      status := TransactionStatus.pending, payment_method := none,
      external_transaction_id := none, description := "Withdrawal",
      metadata := none, created_at := 0, processed_at := none }
    (by decide) (by decide) (by decide) (by decide) (by decide) 2
    { id := 2, user_id := 1, type := TransactionType.topup, amount := -5,
      status := TransactionStatus.pending, payment_method := none,
      external_transaction_id := none, description := "Coin topup",
      metadata := none, created_at := 0, processed_at := none }
    (by decide) (by decide) (by decide) (by decide) (by decide)
  exact h

end Raxnet

